import Mathlib

/-!
# Deployment orchestration CLI (`terraform.go`)

A shallow embedding of `terraform.go`: the command-line flags become a `Config`
record, every external collaborator (the build tool, the directory listing, the
Terraform installer and the Terraform session) becomes a field of `World`, and each
Go function becomes a function that threads the trace of events performed so far and
either returns normally or terminates fatally (`log.Fatalf`).
-/

namespace Terraform

/-! ## `fmt.Sprintf` for the verbs used in the source -/

/-- An operand handed to `fmt.Sprintf`: a `uint`, a `string` (also used for an `error`,
which `%s` and `%v` render through its message) or a `[]string`. -/
inductive Arg where
  | uint (n : Nat)
  | str (s : String)
  | strs (l : List String)
deriving DecidableEq, Repr

/-- Rendering of a `string` operand under verb `v`: `%s` and `%v` print the string itself,
any other verb character prints Go's bad-verb form. -/
def renderStr (v : Char) (s : String) : List Char :=
  if v = 's' ∨ v = 'v' then s.data
  else [ '%', '!', v] ++ "(string=".data ++ s.data ++ [ ')']

/-- Rendering of a `uint` operand under verb `v`: `%d` and `%v` print the decimal digits,
any other verb character prints Go's bad-verb form. -/
def renderUint (v : Char) (n : Nat) : List Char :=
  if v = 'd' ∨ v = 'v' then (Nat.repr n).data
  else [ '%', '!', v] ++ "(uint=".data ++ (Nat.repr n).data ++ [ ')']

/-- Rendering of the elements of a `[]string`, separated by single spaces. -/
def renderElems (v : Char) : List String → List Char
  | [] => []
  | [s] => renderStr v s
  | s :: rest => renderStr v s ++ ' ' :: renderElems v rest

/-- Rendering of one operand under verb `v`. -/
def renderArg (v : Char) : Arg → List Char
  | .uint n => renderUint v n
  | .str s => renderStr v s
  | .strs l => [ '['] ++ renderElems v l ++ [ ']']

/-- Go type name of an operand, as printed in the `EXTRA` form. -/
def Arg.typeName : Arg → String
  | .uint _ => "uint"
  | .str _ => "string"
  | .strs _ => "[]string"

/-- Operands left over once the format is exhausted, as listed inside `%!(EXTRA ...)`. -/
def renderExtra : List Arg → List Char
  | [] => []
  | [a] => a.typeName.data ++ '=' :: renderArg 'v' a
  | a :: rest => a.typeName.data ++ '=' :: renderArg 'v' a ++ ',' :: ' ' :: renderExtra rest

/-- The format interpreter: ordinary characters are copied, `%%` prints a percent sign,
`%c` consumes the next operand and renders it under verb `c`. -/
def sprintfAux : List Char → List Arg → List Char
  | [], [] => []
  | [], a :: args => "%!(EXTRA ".data ++ renderExtra (a :: args) ++ [ ')']
  | c :: rest, args =>
    if c = '%' then
      match rest, args with
      | [], _ => "%!(NOVERB)".data ++ sprintfAux [] args
      | v :: rest', [] =>
        if v = '%' then '%' :: sprintfAux rest' []
        else [ '%', '!', v] ++ "(MISSING)".data ++ sprintfAux rest' []
      | v :: rest', a :: args' =>
        if v = '%' then '%' :: sprintfAux rest' (a :: args')
        else renderArg v a ++ sprintfAux rest' args'
    else c :: sprintfAux rest args

/-- Model of `fmt.Sprintf(format, args...)` for the verbs `%d`, `%s`, `%v` and the operand
types that occur in `terraform.go`. -/
def Sprintf (format : String) (args : List Arg) : String :=
  String.mk (sprintfAux format.data args)

/-! ## Data model -/

/-- The command-line flags of the program (the package-level `flag` variables), as
populated by `flag.Parse()`. -/
structure Config where
  awsAccountNumber : Nat
  environment : String
  awsRegion : String
  appName : String
  tfOp : String
  build : String
  vpcId : String
deriving DecidableEq, Repr

/-- An entry returned by `os.ReadDir`. -/
structure DirEntry where
  Name : String
  IsDir : Bool
deriving DecidableEq, Repr

/-- The value of one Terraform output (`tfexec.OutputMeta`): the sensitivity flag and the
raw serialized value, as the string that `string(outputs[key].Value)` yields. -/
structure OutputMeta where
  Sensitive : Bool
  Value : String
deriving DecidableEq, Repr

/-- The option values built with `tfexec.Upgrade`, `tfexec.BackendConfig`,
`tfexec.Refresh`, `tfexec.Var` and `tfexec.VarFile`. -/
inductive TfOption where
  | Upgrade (b : Bool)
  | BackendConfig (s : String)
  | Refresh (b : Bool)
  | Var (s : String)
  | VarFile (s : String)
deriving DecidableEq, Repr

/-- The session handle returned by `tfexec.NewTerraform`. -/
structure Handle where
  workingDir : String
  execPath : String
deriving DecidableEq, Repr

/-- Everything the program does that is visible outside it, in the order performed. -/
inductive Event where
  /-- A line written through `log.Println` or `log.Printf`. -/
  | log (msg : String)
  /-- A string written through `fmt.Println`. -/
  | stdout (s : String)
  /-- A call of `os.ReadDir`. -/
  | readDir (name : String)
  /-- A subprocess run by `runCmdIn`; `ok` records whether `cmd.Run()` returned no error. -/
  | exec (dir : String) (command : String) (args : List String) (ok : Bool)
  /-- A call of `installer.Install` for the exact Terraform version given. -/
  | install (version : String)
  /-- A call of `tfexec.NewTerraform`. -/
  | newTerraform (workingDir : String) (execPath : String)
  /-- A call of `tf.Init`. -/
  | tfInit (opts : List TfOption)
  /-- A call of `tf.Plan`. -/
  | tfPlan (opts : List TfOption)
  /-- A call of `tf.Apply`. -/
  | tfApply (opts : List TfOption)
  /-- A call of `tf.Output`. -/
  | tfOutput
deriving DecidableEq, Repr

/-- The trace of events performed so far. -/
abbrev Trace := List Event

/-- The external collaborators. Each answer may depend on everything that happened before
the call. An `Option String` answer is a Go `error` (`none` is `nil`). -/
structure World where
  /-- Result of `os.ReadDir(name)`. -/
  ReadDir : Trace → String → Except String (List DirEntry)
  /-- Result of `cmd.Run()` for the command run in the directory. -/
  Run : Trace → String → String → List String → Option String
  /-- Result of `installer.Install`: the path of the executable, or an error. -/
  Install : Trace → String → Except String String
  /-- Error result of `tfexec.NewTerraform(workingDir, execPath)`. -/
  NewTerraform : Trace → String → String → Option String
  /-- Error result of `tf.Init`. -/
  Init : Trace → Handle → List TfOption → Option String
  /-- Error result of `tf.Plan`. -/
  Plan : Trace → Handle → List TfOption → Option String
  /-- Error result of `tf.Apply`. -/
  Apply : Trace → Handle → List TfOption → Option String
  /-- Result of `tf.Output`: the output map as enumerated by `range`, or an error. -/
  Output : Trace → Handle → Except String (List (String × OutputMeta))
  /-- Contents of the buffer installed with `tf.SetStdout(&buf)`. The session writes to it
  the standard output of every command it runs, the JSON document printed by
  `terraform output -json` (from which `tf.Output` decodes its result) included. -/
  Stdout : Trace → String

deriving instance DecidableEq for Except

/-- A computation of the program: from the trace so far to the extended trace and either
a normal result or the message of a fatal termination. -/
def Prog (α : Type) : Type := Trace → Trace × Except String α

/-- Normal return. -/
def Prog.ret {α : Type} (a : α) : Prog α := fun t => (t, .ok a)

/-- Sequencing: a fatal termination of the first computation ends the whole computation. -/
def Prog.andThen {α β : Type} (x : Prog α) (f : α → Prog β) : Prog β := fun t =>
  match x t with
  | (t', .ok a) => f a t'
  | (t', .error e) => (t', .error e)

instance : Monad Prog where
  pure := Prog.ret
  bind := Prog.andThen

/-- Perform one event. -/
def emit (e : Event) : Prog Unit := fun t => (t ++ [e], .ok ())

/-- A call of an external collaborator: the event is recorded and the collaborator
answers from what happened before the call. -/
def call {β : Type} (e : Event) (answer : Trace → β) : Prog β :=
  fun t => (t ++ [e], .ok (answer t))

/-- Model of `log.Fatalf(format, args...)`: the process exits with the formatted message. -/
def Fatalf {α : Type} (format : String) (args : List Arg) : Prog α :=
  fun t => (t, .error (Sprintf format args))

/-- Model of `log.Fatal(v)`: the process exits with the operand in its default format. -/
def Fatal {α : Type} (v : Arg) : Prog α := Fatalf "%v" [v]

/-! ## The program -/

/-- Model of `shouldBuildLambdas`. -/
def shouldBuildLambdas (cfg : Config) : Bool :=
  cfg.build != "none" && (cfg.tfOp == "plan" || cfg.tfOp == "apply")

/-- Model of `runCmdIn`. -/
def runCmdIn (w : World) (dir : String) (command : String) (args : List String) : Prog Unit :=
  fun t =>
    match w.Run t dir command args with
    | none => (t ++ [Event.exec dir command args true], .ok ())
    | some err =>
      (t ++ [Event.exec dir command args false],
        .error (Sprintf "error running %s %s: %s" [.str command, .strs args, .str err]))

/-- Model of `buildLambda`. -/
def buildLambda (w : World) (lambdaName : String) : Prog Unit := do
  emit (.log (Sprintf "running tests for %s Lambda...\n" [.str lambdaName]))
  runCmdIn w (Sprintf "lambdas/%s" [.str lambdaName]) "make" ["test"]
  emit (.log (Sprintf "building %s Lambda...\n" [.str lambdaName]))
  runCmdIn w (Sprintf "lambdas/%s" [.str lambdaName]) "make" ["target"]

/-- The loop `for _, item := range items` of `buildLambdas`. -/
def buildItems (w : World) : List DirEntry → Prog Unit
  | [] => pure ()
  | item :: rest => do
    if item.IsDir then
      buildLambda w item.Name
    buildItems w rest

/-- Model of `buildLambdas`. -/
def buildLambdas (cfg : Config) (w : World) : Prog Unit := do
  emit (.log "building Lambdas...")
  if cfg.build = "all" then
    let r ← call (.readDir "lambdas") (fun t => w.ReadDir t "lambdas")
    match r with
    | .error err => Fatal (.str err)
    | .ok items => buildItems w items
  else
    buildLambda w cfg.build

/-- Model of `setupTerraformExec`. -/
def setupTerraformExec (w : World) : Prog Handle := do
  emit (.log "installing Terraform...")
  let r ← call (.install "1.6") (fun t => w.Install t "1.6")
  match r with
  | .error err => Fatalf "error installing Terraform: %s" [.str err]
  | .ok execPath =>
    let workingDir := "terraform"
    let e ← call (.newTerraform workingDir execPath)
      (fun t => w.NewTerraform t workingDir execPath)
    match e with
    | some err => Fatalf "error running NewTerraform: %s" [.str err]
    | none => pure { workingDir := workingDir, execPath := execPath }

/-- The options handed to `tf.Init` in `terraformInit`. -/
def initOptions (cfg : Config) (tfWorkingBucket : String) (awsRegion : String) :
    List TfOption :=
  [ .Upgrade true,
    .BackendConfig (Sprintf "key=tfstate/%s/%s.json" [.str cfg.environment, .str cfg.appName]),
    .BackendConfig (Sprintf "bucket=%s" [.str tfWorkingBucket]),
    .BackendConfig (Sprintf "region=%s" [.str awsRegion]) ]

/-- Model of `terraformInit`. -/
def terraformInit (cfg : Config) (w : World) (tf : Handle) (tfWorkingBucket : String)
    (awsRegion : String) : Prog Unit := do
  emit (.log "initialising Terraform...")
  let opts := initOptions cfg tfWorkingBucket awsRegion
  let e ← call (.tfInit opts) (fun t => w.Init t tf opts)
  match e with
  | some err => Fatalf "error running Init: %s" [.str err]
  | none => pure ()

/-- The options handed to `tf.Plan` in `terraformPlan`. -/
def planOptions (cfg : Config) (tfWorkingBucket : String) (awsAccountNumber : Nat)
    (environment : String) : List TfOption :=
  [ .Refresh true,
    .Var (Sprintf "terraform_working_bucket=%s" [.str tfWorkingBucket]),
    .Var (Sprintf "account_number=%d" [.uint awsAccountNumber]),
    .Var (Sprintf "environment=%s" [.str environment]),
    .Var (Sprintf "vpc_id=%s" [.str cfg.vpcId]),
    .VarFile (Sprintf "environments/%s.tfvars" [.str environment]) ]

/-- Model of `terraformPlan`. -/
def terraformPlan (cfg : Config) (w : World) (tf : Handle) (tfWorkingBucket : String)
    (awsAccountNumber : Nat) (environment : String) : Prog Unit := do
  emit (.log "planning Terraform...")
  let opts := planOptions cfg tfWorkingBucket awsAccountNumber environment
  let e ← call (.tfPlan opts) (fun t => w.Plan t tf opts)
  match e with
  | some err => Fatalf "error running Plan: %s" [.str err]
  | none => pure ()

/-- The loop `for key := range outputs` of `displayTerraformOutputs`; the map is given as the
list of its entries in the order `range` enumerates them, so `outputs[key]` is the entry
paired with `key`. -/
def printOutputs : List (String × OutputMeta) → Prog Unit
  | [] => pure ()
  | (key, o) :: rest =>
    if o.Sensitive then
      printOutputs rest
    else do
      emit (.stdout (Sprintf "%s = %s\n" [.str key, .str o.Value]))
      printOutputs rest

/-- Model of `displayTerraformOutputs`. -/
def displayTerraformOutputs (w : World) (tf : Handle) : Prog Unit := do
  let r ← call .tfOutput (fun t => w.Output t tf)
  match r with
  | .error err => Fatalf "Error outputting outputs: %v" [.str err]
  | .ok outputs =>
    if outputs.length > 0 then
      emit (.stdout "Terraform outputs:")
    printOutputs outputs

/-- The options handed to `tf.Apply` in `terraformApply`. -/
def applyOptions (cfg : Config) (workingBucket : String) (awsAccountNumber : Nat)
    (environment : String) : List TfOption :=
  [ .Refresh true,
    .Var (Sprintf "terraform_working_bucket=%s" [.str workingBucket]),
    .Var (Sprintf "account_number=%d" [.uint awsAccountNumber]),
    .Var (Sprintf "environment=%s" [.str environment]),
    .Var (Sprintf "vpc_id=%s" [.str cfg.vpcId]),
    .VarFile (Sprintf "environments/%s.tfvars" [.str environment]) ]

/-- Model of `terraformApply`. -/
def terraformApply (cfg : Config) (w : World) (tf : Handle) (workingBucket : String)
    (awsAccountNumber : Nat) (environment : String) : Prog Unit := do
  emit (.log "applying Terraform...")
  let opts := applyOptions cfg workingBucket awsAccountNumber environment
  let e ← call (.tfApply opts) (fun t => w.Apply t tf opts)
  match e with
  | some err => Fatalf "error running Apply: %s" [.str err]
  | none => displayTerraformOutputs w tf

/-- The value `tfWorkingBucket` computed in `runTerraformCommand`. -/
def tfWorkingBucket (cfg : Config) : String :=
  Sprintf "%d-%s-terraform-deployments" [.uint cfg.awsAccountNumber, .str cfg.awsRegion]

/-- The statement `log.Println(buf.String())`: the captured standard output of the session
is written to the log. -/
def flushStdout (w : World) : Prog Unit :=
  fun t => (t ++ [Event.log (w.Stdout t)], .ok ())

/-- Model of `runTerraformCommand`. The buffer installed with `tf.SetStdout(&buf)` is the
`Stdout` field of the world; it is written to the log only when the dispatched operation
returns. -/
def runTerraformCommand (cfg : Config) (w : World) : Prog Unit := do
  let tf ← setupTerraformExec w
  if cfg.tfOp = "init" then
    terraformInit cfg w tf (tfWorkingBucket cfg) cfg.awsRegion
  else if cfg.tfOp = "plan" then
    terraformPlan cfg w tf (tfWorkingBucket cfg) cfg.awsAccountNumber cfg.environment
  else if cfg.tfOp = "apply" then
    terraformApply cfg w tf (tfWorkingBucket cfg) cfg.awsAccountNumber cfg.environment
  else if cfg.tfOp = "destroy" then
    Fatalf "Destroy needs implementing!" []
  else
    Fatalf "Bad operation: --tfop should be one of init, plan, apply, skip, or destroy" []
  flushStdout w

/-- Model of `main`, after `flag.Parse()` has filled in the configuration. -/
def main (cfg : Config) (w : World) : Prog Unit := do
  if shouldBuildLambdas cfg then
    buildLambdas cfg w
  runTerraformCommand cfg w

/-- A whole run of the program, from the empty trace. -/
def run (cfg : Config) (w : World) : Trace × Except String Unit :=
  main cfg w []

/-! ## Observations on traces -/

/-- The option lists of the `tf.Init` calls of a trace, in order. -/
def initCalls : Trace → List (List TfOption)
  | [] => []
  | .tfInit opts :: rest => opts :: initCalls rest
  | _ :: rest => initCalls rest

/-- The option lists of the `tf.Plan` calls of a trace, in order. -/
def planCalls : Trace → List (List TfOption)
  | [] => []
  | .tfPlan opts :: rest => opts :: planCalls rest
  | _ :: rest => planCalls rest

/-- The option lists of the `tf.Apply` calls of a trace, in order. -/
def applyCalls : Trace → List (List TfOption)
  | [] => []
  | .tfApply opts :: rest => opts :: applyCalls rest
  | _ :: rest => applyCalls rest

/-- The strings written to standard output through `fmt.Println`, in order. -/
def printed : Trace → List String
  | [] => []
  | .stdout s :: rest => s :: printed rest
  | _ :: rest => printed rest

/-- The subprocesses run, in order, as (directory, command, arguments). -/
def commands : Trace → List (String × String × List String)
  | [] => []
  | .exec dir command args _ :: rest => (dir, command, args) :: commands rest
  | _ :: rest => commands rest

/-- A build command: a subprocess started by `runCmdIn`. -/
def isBuildCommand : Event → Bool
  | .exec _ _ _ _ => true
  | _ => false

/-- A build step whose subprocess failed. -/
def isFailedStep : Event → Bool
  | .exec _ _ _ ok => !ok
  | _ => false

/-- A call on the Terraform session: init, plan, apply or output. -/
def isProvisioningCall : Event → Bool
  | .tfInit _ => true
  | .tfPlan _ => true
  | .tfApply _ => true
  | .tfOutput => true
  | _ => false

/-- The set-up of the Terraform session: installation of the executable and creation of
the handle. -/
def isSetup : Event → Bool
  | .install _ => true
  | .newTerraform _ _ => true
  | _ => false

/-- An external action: anything but writing to the log stream or to standard output. -/
def isExternalAction : Event → Bool
  | .log _ => false
  | .stdout _ => false
  | _ => true

/-- The external actions of a trace, in order. -/
def externalActions (t : Trace) : Trace := t.filter isExternalAction

/-- Whether a run ended in a fatal termination. -/
def isFatal {α : Type} : Except String α → Bool
  | .error _ => true
  | .ok _ => false

/-- Neither a set-up step nor a call on the Terraform session. -/
def isBuildPhaseEvent (e : Event) : Bool := !isSetup e && !isProvisioningCall e

/-- Not a build command. -/
def isProvisioningPhaseEvent (e : Event) : Bool := !isBuildCommand e

/-- Every event the computation adds to the trace satisfies `P`. -/
def Adds {α : Type} (P : Event → Bool) (p : Prog α) : Prop :=
  ∀ t, ∃ added, (p t).1 = t ++ added ∧ added.all P = true

/-- The computation adds no failed build step, or the failed build step is the last event it
adds and it terminates fatally with the error message of that step. -/
def StopsAtFailure {α : Type} (p : Prog α) : Prop :=
  ∀ t, ∃ added, (p t).1 = t ++ added ∧
    (added.any isFailedStep = false ∨
      ∃ pre dir command args err,
        added = pre ++ [Event.exec dir command args false]
        ∧ pre.any isFailedStep = false
        ∧ (p t).2 = .error
            (Sprintf "error running %s %s: %s" [.str command, .strs args, .str err]))

/-- Everything the process writes, to the log stream or to standard output, in order. -/
def processOutput : Trace → List String
  | [] => []
  | .log msg :: rest => msg :: processOutput rest
  | .stdout s :: rest => s :: processOutput rest
  | _ :: rest => processOutput rest

/-- Whether the first text is an initial segment of the second. -/
def startsWith : List Char → List Char → Bool
  | [], _ => true
  | _ :: _, [] => false
  | x :: xs, y :: ys => x == y && startsWith xs ys

/-- Whether the text `sub` occurs somewhere in the text given. -/
def occursAux (sub : List Char) : List Char → Bool
  | [] => startsWith sub []
  | c :: rest => startsWith sub (c :: rest) || occursAux sub rest

/-- Whether the string `sub` occurs somewhere in the string `s`. -/
def occursIn (sub : String) (s : String) : Bool := occursAux sub.data s.data

/-- The line printed for one non-sensitive output. -/
def outputLine (kv : String × OutputMeta) : String := kv.1 ++ " = " ++ kv.2.Value ++ "\n"

/-- The maximal alphabetic words of a text, in order; `cur` is the word being read,
reversed. -/
def wordsAux : List Char → List Char → List String
  | [], cur => if cur = [] then [] else [String.mk cur.reverse]
  | c :: rest, cur =>
    if c.isAlpha then wordsAux rest (c :: cur)
    else if cur = [] then wordsAux rest []
    else String.mk cur.reverse :: wordsAux rest []

/-- The names a message of the form `... one of a, b, c, or d` enumerates: the words
after `of`, the conjunction `or` left out. -/
def listedOperations (msg : String) : List String :=
  (((wordsAux msg.data []).dropWhile (fun x => x != "of")).drop 1).filter (fun x => x != "or")

/-- The operations for which the `switch` of `runTerraformCommand` has a `case`. -/
def recognisedOperations : List String := ["init", "plan", "apply", "destroy"]

/-! ## Concrete inputs -/


/-- The JSON document `terraform output -json` prints for the plain output `url` with value
"https://x" and the sensitive output `secret` with value "abc". -/
def outputJson : String :=
  "\x7b\n  \"secret\": \x7b\n    \"sensitive\": true,\n    \"type\": \"string\",\n"
    ++ "    \"value\": \"abc\"\n  \x7d,\n  \"url\": \x7b\n    \"sensitive\": false,\n"
    ++ "    \"type\": \"string\",\n    \"value\": \"https://x\"\n  \x7d\n\x7d\n"

/-- A world in which every external step succeeds; the artifacts root holds the
directories `A` and `B` and the file `README`, and the session has the plain output `url`
and the sensitive output `secret`, their values in raw JSON. The captured standard output
of the session holds the JSON document of the outputs once `tf.Output` has run. -/
def worldOk : World where
  ReadDir := fun _ _ => .ok [⟨"A", true⟩, ⟨"B", true⟩, ⟨"README", false⟩]
  Run := fun _ _ _ _ => none
  Install := fun _ _ => .ok "/tmp/terraform"
  NewTerraform := fun _ _ _ => none
  Init := fun _ _ _ => none
  Plan := fun _ _ _ => none
  Apply := fun _ _ _ => none
  Output := fun _ _ =>
    .ok [("url", ⟨false, "\"https://x\""⟩), ("secret", ⟨true, "\"abc\""⟩)]
  Stdout := fun t => if t.contains Event.tfOutput then outputJson else ""

/-- A world like `worldOk` in which `make target` fails for artifact `A`. -/
def worldTargetFails : World :=
  { worldOk with
    Run := fun _ dir _ args =>
      if dir = "lambdas/A" ∧ args = ["target"] then some "exit status 2" else none }

/-- The flag defaults, with the given operation and build selector. -/
def cfgOf (op : String) (build : String) : Config where
  awsAccountNumber := 123
  environment := "nonprod"
  awsRegion := "eu-west-1"
  appName := "jwt-authorizer"
  tfOp := op
  build := build
  vpcId := "vpc-1"

/-! ## Basic facts about the model -/

@[simp] theorem pure_apply {α : Type} (a : α) (t : Trace) :
    (pure a : Prog α) t = (t, .ok a) := rfl

@[simp] theorem bind_apply {α β : Type} (x : Prog α) (f : α → Prog β) (t : Trace) :
    (x >>= f) t = match x t with
      | (t', .ok a) => f a t'
      | (t', .error e) => (t', .error e) := rfl

@[simp] theorem emit_apply (e : Event) (t : Trace) : emit e t = (t ++ [e], .ok ()) := rfl

@[simp] theorem call_apply {β : Type} (e : Event) (answer : Trace → β) (t : Trace) :
    call e answer t = (t ++ [e], .ok (answer t)) := rfl

@[simp] theorem flushStdout_apply (w : World) (t : Trace) :
    flushStdout w t = (t ++ [Event.log (w.Stdout t)], .ok ()) := rfl

@[simp] theorem Fatalf_apply {α : Type} (format : String) (args : List Arg) (t : Trace) :
    (Fatalf format args : Prog α) t = (t, .error (Sprintf format args)) := rfl

/-! ### The format strings of the source, evaluated -/

theorem Sprintf_bucket (n : Nat) (r : String) :
    Sprintf "%d-%s-terraform-deployments" [.uint n, .str r]
      = (Nat.toDigits 10 n).asString ++ "-" ++ r ++ "-terraform-deployments" := by
  have h : sprintfAux "%d-%s-terraform-deployments".data [.uint n, .str r]
      = (Nat.repr n).data ++ ( '-' :: (r.data ++ "-terraform-deployments".data)) := rfl
  apply String.ext
  simp [Sprintf, h, Nat.repr, List.asString]

theorem Sprintf_key (e a : String) :
    Sprintf "key=tfstate/%s/%s.json" [.str e, .str a]
      = "key=tfstate/" ++ e ++ "/" ++ a ++ ".json" := by
  have h : sprintfAux "key=tfstate/%s/%s.json".data [.str e, .str a]
      = "key=tfstate/".data ++ (e.data ++ ( '/' :: (a.data ++ ".json".data))) := rfl
  apply String.ext
  simp [Sprintf, h]

theorem Sprintf_entry (k v : String) :
    Sprintf "%s = %s\n" [.str k, .str v] = k ++ " = " ++ v ++ "\n" := by
  have h : sprintfAux "%s = %s\n".data [.str k, .str v]
      = k.data ++ (" = ".data ++ (v.data ++ "\n".data)) := rfl
  apply String.ext
  simp [Sprintf, h]

theorem Sprintf_bucketOpt (b : String) : Sprintf "bucket=%s" [.str b] = "bucket=" ++ b := by
  have h : sprintfAux "bucket=%s".data [.str b]  = "bucket=".data ++ (b.data ++ []) := rfl
  apply String.ext
  simp [Sprintf, h]

theorem Sprintf_regionOpt (r : String) : Sprintf "region=%s" [.str r] = "region=" ++ r := by
  have h : sprintfAux "region=%s".data [.str r]  = "region=".data ++ (r.data ++ []) := rfl
  apply String.ext
  simp [Sprintf, h]

theorem Sprintf_bucketVar (b : String) :
    Sprintf "terraform_working_bucket=%s" [.str b] = "terraform_working_bucket=" ++ b := by
  have h : sprintfAux "terraform_working_bucket=%s".data [.str b]
      = "terraform_working_bucket=".data ++ (b.data ++ []) := rfl
  apply String.ext
  simp [Sprintf, h]

theorem Sprintf_accountVar (n : Nat) :
    Sprintf "account_number=%d" [.uint n] = "account_number=" ++ (Nat.toDigits 10 n).asString := by
  have h : sprintfAux "account_number=%d".data [.uint n]
      = "account_number=".data ++ ((Nat.repr n).data ++ []) := rfl
  apply String.ext
  simp [Sprintf, h, Nat.repr, List.asString]

theorem Sprintf_environmentVar (e : String) :
    Sprintf "environment=%s" [.str e] = "environment=" ++ e := by
  have h : sprintfAux "environment=%s".data [.str e]  = "environment=".data ++ (e.data ++ []) := rfl
  apply String.ext
  simp [Sprintf, h]

theorem Sprintf_vpcVar (v : String) : Sprintf "vpc_id=%s" [.str v] = "vpc_id=" ++ v := by
  have h : sprintfAux "vpc_id=%s".data [.str v]  = "vpc_id=".data ++ (v.data ++ []) := rfl
  apply String.ext
  simp [Sprintf, h]

theorem Sprintf_varFile (e : String) :
    Sprintf "environments/%s.tfvars" [.str e] = "environments/" ++ e ++ ".tfvars" := by
  have h : sprintfAux "environments/%s.tfvars".data [.str e]
      = "environments/".data ++ (e.data ++ ".tfvars".data) := rfl
  apply String.ext
  simp [Sprintf, h]

theorem Sprintf_lambdaDir (n : String) : Sprintf "lambdas/%s" [.str n] = "lambdas/" ++ n := by
  have h : sprintfAux "lambdas/%s".data [.str n]  = "lambdas/".data ++ (n.data ++ []) := rfl
  apply String.ext
  simp [Sprintf, h]

/-! ### Observations distribute over concatenation -/

@[simp] theorem initCalls_append (a b : Trace) : initCalls (a ++ b) = initCalls a ++ initCalls b := by
  induction a with
  | nil => rfl
  | cons e a ih => cases e <;> simp [initCalls, ih]

@[simp] theorem planCalls_append (a b : Trace) : planCalls (a ++ b) = planCalls a ++ planCalls b := by
  induction a with
  | nil => rfl
  | cons e a ih => cases e <;> simp [planCalls, ih]

@[simp] theorem applyCalls_append (a b : Trace) :
    applyCalls (a ++ b) = applyCalls a ++ applyCalls b := by
  induction a with
  | nil => rfl
  | cons e a ih => cases e <;> simp [applyCalls, ih]

@[simp] theorem printed_append (a b : Trace) : printed (a ++ b) = printed a ++ printed b := by
  induction a with
  | nil => rfl
  | cons e a ih => cases e <;> simp [printed, ih]

@[simp] theorem commands_append (a b : Trace) : commands (a ++ b) = commands a ++ commands b := by
  induction a with
  | nil => rfl
  | cons e a ih => cases e <;> simp [commands, ih]

/-! ### The output loop -/

theorem printOutputs_apply (outputs : List (String × OutputMeta)) (t : Trace) :
    printOutputs outputs t
      = (t ++ ((outputs.filter (fun kv => !kv.2.Sensitive)).map
            (fun kv => Event.stdout (outputLine kv))), .ok ()) := by
  induction outputs generalizing t with
  | nil => simp [printOutputs]
  | cons kv rest ih =>
    obtain ⟨k, o⟩ := kv
    cases h : o.Sensitive
    · simp [printOutputs, h, ih, outputLine, Sprintf_entry]
    · simp [printOutputs, h, ih]

theorem displayTerraformOutputs_apply (w : World) (tf : Handle) (t : Trace) :
    displayTerraformOutputs w tf t =
      match w.Output t tf with
      | .error err => (t ++ [Event.tfOutput], .error (Sprintf "Error outputting outputs: %v" [.str err]))
      | .ok outputs =>
        (t ++ [Event.tfOutput]
           ++ (if outputs.length > 0 then [Event.stdout "Terraform outputs:"] else [])
           ++ (outputs.filter (fun kv => !kv.2.Sensitive)).map
                (fun kv => Event.stdout (outputLine kv)), .ok ()) := by
  cases h : w.Output t tf with
  | error err => simp [displayTerraformOutputs, h]
  | ok outputs =>
    by_cases hl : outputs.length > 0
    · simp [displayTerraformOutputs, h, hl, printOutputs_apply]
    · simp [displayTerraformOutputs, h, hl, printOutputs_apply]

/-! ### The provisioning calls -/

theorem terraformPlan_apply (cfg : Config) (w : World) (tf : Handle) (bucket : String)
    (account : Nat) (env : String) (t : Trace) :
    terraformPlan cfg w tf bucket account env t =
      (t ++ [Event.log "planning Terraform...", Event.tfPlan (planOptions cfg bucket account env)],
        match w.Plan (t ++ [Event.log "planning Terraform..."]) tf
            (planOptions cfg bucket account env) with
        | none => .ok ()
        | some err => .error (Sprintf "error running Plan: %s" [.str err])) := by
  cases h : w.Plan (t ++ [Event.log "planning Terraform..."]) tf
      (planOptions cfg bucket account env) <;>
    simp [terraformPlan, h]

theorem terraformInit_apply (cfg : Config) (w : World) (tf : Handle) (bucket : String)
    (region : String) (t : Trace) :
    terraformInit cfg w tf bucket region t =
      (t ++ [Event.log "initialising Terraform...", Event.tfInit (initOptions cfg bucket region)],
        match w.Init (t ++ [Event.log "initialising Terraform..."]) tf
            (initOptions cfg bucket region) with
        | none => .ok ()
        | some err => .error (Sprintf "error running Init: %s" [.str err])) := by
  cases h : w.Init (t ++ [Event.log "initialising Terraform..."]) tf
      (initOptions cfg bucket region) <;>
    simp [terraformInit, h]

/-- What `terraformApply` adds to the trace after its call of `tf.Apply`: nothing when the
call failed, the output report otherwise. -/
theorem terraformApply_apply (cfg : Config) (w : World) (tf : Handle) (bucket : String)
    (account : Nat) (env : String) (t : Trace) :
    ∃ rest, (terraformApply cfg w tf bucket account env t).1 =
        t ++ [Event.log "applying Terraform...",
              Event.tfApply (applyOptions cfg bucket account env)] ++ rest
      ∧ initCalls rest = [] ∧ planCalls rest = [] ∧ applyCalls rest = []
      ∧ rest.any isBuildCommand = false ∧ rest.any isSetup = false := by
  cases h : w.Apply (t ++ [Event.log "applying Terraform..."]) tf
      (applyOptions cfg bucket account env) with
  | some err =>
    exact ⟨[], by simp [terraformApply, h], rfl, rfl, rfl, rfl, rfl⟩
  | none =>
    cases ho : w.Output (t ++ [Event.log "applying Terraform...",
        Event.tfApply (applyOptions cfg bucket account env)]) tf with
    | error err =>
      exact ⟨[Event.tfOutput],
        by simp [terraformApply, h, displayTerraformOutputs_apply, ho], rfl, rfl, rfl, rfl, rfl⟩
    | ok outputs =>
      refine ⟨[Event.tfOutput]
           ++ (if outputs.length > 0 then [Event.stdout "Terraform outputs:"] else [])
           ++ (outputs.filter (fun kv => !kv.2.Sensitive)).map
                (fun kv => Event.stdout (outputLine kv)),
        by simp [terraformApply, h, displayTerraformOutputs_apply, ho], ?_⟩
      have hm : ∀ l : List (String × OutputMeta),
          initCalls (l.map (fun kv => Event.stdout (outputLine kv))) = []
          ∧ planCalls (l.map (fun kv => Event.stdout (outputLine kv))) = []
          ∧ applyCalls (l.map (fun kv => Event.stdout (outputLine kv))) = []
          ∧ (l.map (fun kv => Event.stdout (outputLine kv))).any isBuildCommand = false
          ∧ (l.map (fun kv => Event.stdout (outputLine kv))).any isSetup = false := by
        intro l
        induction l with
        | nil => simp [initCalls, planCalls, applyCalls]
        | cons a l ih =>
          simp [initCalls, planCalls, applyCalls, isBuildCommand, isSetup] at ih ⊢
          exact ih
      obtain ⟨h1, h2, h3, h4, h5⟩ := hm (outputs.filter (fun kv => !kv.2.Sensitive))
      by_cases hl : outputs.length > 0
      · simp [hl, initCalls, planCalls, applyCalls, isBuildCommand, isSetup, h1, h2, h3] at h4 h5 ⊢
        exact ⟨h4, h5⟩
      · simp [hl, initCalls, planCalls, applyCalls, isBuildCommand, isSetup, h1, h2, h3] at h4 h5 ⊢
        exact ⟨h4, h5⟩

/-! ### Set-up and dispatch -/

theorem setupTerraformExec_apply (w : World) (t : Trace) :
    setupTerraformExec w t =
      match w.Install (t ++ [Event.log "installing Terraform..."]) "1.6" with
      | .error err =>
        (t ++ [Event.log "installing Terraform...", Event.install "1.6"],
          .error (Sprintf "error installing Terraform: %s" [.str err]))
      | .ok execPath =>
        (t ++ [Event.log "installing Terraform...", Event.install "1.6",
               Event.newTerraform "terraform" execPath],
          match w.NewTerraform
              (t ++ [Event.log "installing Terraform...", Event.install "1.6"])
              "terraform" execPath with
          | some err => .error (Sprintf "error running NewTerraform: %s" [.str err])
          | none => .ok ⟨"terraform", execPath⟩) := by
  cases h : w.Install (t ++ [Event.log "installing Terraform..."]) "1.6" with
  | error err => simp [setupTerraformExec, h]
  | ok execPath =>
    cases h2 : w.NewTerraform
        (t ++ [Event.log "installing Terraform...", Event.install "1.6"])
        "terraform" execPath <;>
      simp [setupTerraformExec, h, h2]

/-- An operation other than "plan" and "apply" skips the build: the run is
`runTerraformCommand` from the empty trace. -/
theorem run_eq_of_no_build (cfg : Config) (w : World)
    (hp : cfg.tfOp ≠ "plan") (ha : cfg.tfOp ≠ "apply") :
    run cfg w = runTerraformCommand cfg w [] := by
  simp [run, main, shouldBuildLambdas, hp, ha]

/-- The run for an operation that is neither "init", "plan" nor "apply". -/
theorem run_of_no_provisioning_op (cfg : Config) (w : World)
    (hi : cfg.tfOp ≠ "init") (hp : cfg.tfOp ≠ "plan") (ha : cfg.tfOp ≠ "apply") :
    run cfg w =
      match w.Install [Event.log "installing Terraform..."] "1.6" with
      | .error err =>
        ([Event.log "installing Terraform...", Event.install "1.6"],
          .error (Sprintf "error installing Terraform: %s" [.str err]))
      | .ok execPath =>
        ([Event.log "installing Terraform...", Event.install "1.6",
          Event.newTerraform "terraform" execPath],
          match w.NewTerraform [Event.log "installing Terraform...", Event.install "1.6"]
              "terraform" execPath with
          | some err => .error (Sprintf "error running NewTerraform: %s" [.str err])
          | none =>
            if cfg.tfOp = "destroy" then .error (Sprintf "Destroy needs implementing!" [])
            else .error (Sprintf
              "Bad operation: --tfop should be one of init, plan, apply, skip, or destroy" [])) := by
  rw [run_eq_of_no_build cfg w hp ha]
  cases h : w.Install [Event.log "installing Terraform..."] "1.6" with
  | error err => simp [runTerraformCommand, setupTerraformExec_apply, h]
  | ok execPath =>
    cases h2 : w.NewTerraform [Event.log "installing Terraform...", Event.install "1.6"]
        "terraform" execPath with
    | some err => simp [runTerraformCommand, setupTerraformExec_apply, h, h2]
    | none =>
      by_cases hd : cfg.tfOp = "destroy"
      · simp [runTerraformCommand, setupTerraformExec_apply, h, h2, hd]
      · simp [runTerraformCommand, setupTerraformExec_apply, h, h2, hd, hi, hp, ha]

/-- The run for operation "init". -/
theorem run_of_init (cfg : Config) (w : World) (hop : cfg.tfOp = "init") :
    (run cfg w).1 =
      match w.Install [Event.log "installing Terraform..."] "1.6" with
      | .error _ => [Event.log "installing Terraform...", Event.install "1.6"]
      | .ok execPath =>
        match w.NewTerraform [Event.log "installing Terraform...", Event.install "1.6"]
              "terraform" execPath with
        | some _ => [Event.log "installing Terraform...", Event.install "1.6",
                      Event.newTerraform "terraform" execPath]
        | none =>
          [Event.log "installing Terraform...", Event.install "1.6",
            Event.newTerraform "terraform" execPath,
            Event.log "initialising Terraform...",
            Event.tfInit (initOptions cfg (tfWorkingBucket cfg) cfg.awsRegion)]
          ++ (match w.Init [Event.log "installing Terraform...", Event.install "1.6",
                  Event.newTerraform "terraform" execPath,
                  Event.log "initialising Terraform..."] ⟨"terraform", execPath⟩
                  (initOptions cfg (tfWorkingBucket cfg) cfg.awsRegion) with
              | some _ => []
              | none => [Event.log (w.Stdout
                  [Event.log "installing Terraform...", Event.install "1.6",
                    Event.newTerraform "terraform" execPath,
                    Event.log "initialising Terraform...",
                    Event.tfInit (initOptions cfg (tfWorkingBucket cfg) cfg.awsRegion)])]) := by
  rw [run_eq_of_no_build cfg w (by simp [hop]) (by simp [hop])]
  cases h : w.Install [Event.log "installing Terraform..."] "1.6" with
  | error err => simp [runTerraformCommand, setupTerraformExec_apply, h]
  | ok execPath =>
    cases h2 : w.NewTerraform [Event.log "installing Terraform...", Event.install "1.6"]
        "terraform" execPath with
    | some err => simp [runTerraformCommand, setupTerraformExec_apply, h, h2]
    | none =>
      cases h3 : w.Init [Event.log "installing Terraform...", Event.install "1.6",
                  Event.newTerraform "terraform" execPath,
                  Event.log "initialising Terraform..."] ⟨"terraform", execPath⟩
                  (initOptions cfg (tfWorkingBucket cfg) cfg.awsRegion) <;>
        simp [runTerraformCommand, setupTerraformExec_apply, h, h2, hop, terraformInit_apply, h3]

theorem initOptions_eq (cfg : Config) :
    initOptions cfg (tfWorkingBucket cfg) cfg.awsRegion =
      [ .Upgrade true,
        .BackendConfig ("key=tfstate/" ++ cfg.environment ++ "/" ++ cfg.appName ++ ".json"),
        .BackendConfig ("bucket=" ++ ((Nat.toDigits 10 cfg.awsAccountNumber).asString ++ "-"
            ++ cfg.awsRegion ++ "-terraform-deployments")),
        .BackendConfig ("region=" ++ cfg.awsRegion) ] := by
  simp [initOptions, tfWorkingBucket, Sprintf_key, Sprintf_bucketOpt, Sprintf_regionOpt,
    Sprintf_bucket]

/-! ### The build phase -/

theorem runCmdIn_apply (w : World) (dir command : String) (args : List String) (t : Trace) :
    runCmdIn w dir command args t =
      match w.Run t dir command args with
      | none => (t ++ [Event.exec dir command args true], .ok ())
      | some err =>
        (t ++ [Event.exec dir command args false],
          .error (Sprintf "error running %s %s: %s" [.str command, .strs args, .str err])) :=
  rfl

/-- When every subprocess succeeds, `buildLambda` runs `make test` and then `make target` in
the directory of the artifact and returns. -/
theorem buildLambda_of_success (w : World) (name : String) (t : Trace)
    (hrun : ∀ t dir command args, w.Run t dir command args = none) :
    (buildLambda w name t).2 = .ok ()
    ∧ commands (buildLambda w name t).1
        = commands t ++ [("lambdas/" ++ name, "make", ["test"]),
                         ("lambdas/" ++ name, "make", ["target"])] := by
  simp [buildLambda, runCmdIn_apply, hrun, commands, Sprintf_lambdaDir]

theorem buildItems_of_success (w : World) (items : List DirEntry) (t : Trace)
    (hrun : ∀ t dir command args, w.Run t dir command args = none) :
    (buildItems w items t).2 = .ok ()
    ∧ commands (buildItems w items t).1
        = commands t ++ (items.filter (fun item => item.IsDir)).flatMap
            (fun item => [("lambdas/" ++ item.Name, "make", ["test"]),
                          ("lambdas/" ++ item.Name, "make", ["target"])]) := by
  induction items generalizing t with
  | nil => simp [buildItems]
  | cons item rest ih =>
    cases hd : item.IsDir
    · simp [buildItems, hd, ih]
    · obtain ⟨h1, h2⟩ := buildLambda_of_success w item.Name t hrun
      rcases hb : buildLambda w item.Name t with ⟨t1, r⟩
      rw [hb] at h1 h2
      simp only at h1 h2
      subst h1
      simp [buildItems, hd, hb, ih, h2]

/-! ### Every function extends the trace; what it may add -/

theorem adds_pure {α : Type} {P : Event → Bool} (a : α) : Adds P (Pure.pure a : Prog α) :=
  fun t => ⟨[], by simp, rfl⟩

theorem adds_bind {α β : Type} {P : Event → Bool} {x : Prog α} {f : α → Prog β}
    (hx : Adds P x) (hf : ∀ a, Adds P (f a)) : Adds P (x >>= f) := by
  intro t
  obtain ⟨a1, h1, p1⟩ := hx t
  rw [bind_apply]
  rcases hxt : x t with ⟨t1, r⟩
  rw [hxt] at h1
  simp only at h1
  subst h1
  cases r with
  | error e => exact ⟨a1, rfl, p1⟩
  | ok a =>
    obtain ⟨a2, h2, p2⟩ := hf a (t ++ a1)
    refine ⟨a1 ++ a2, by simp [h2], ?_⟩
    rw [List.all_append, p1, p2]
    rfl

theorem adds_emit {P : Event → Bool} (e : Event) (h : P e = true) : Adds P (emit e) :=
  fun t => ⟨[e], rfl, by simp [h]⟩

theorem adds_call {β : Type} {P : Event → Bool} (e : Event) (answer : Trace → β)
    (h : P e = true) : Adds P (call e answer) :=
  fun t => ⟨[e], rfl, by simp [h]⟩

theorem adds_Fatalf {α : Type} {P : Event → Bool} (format : String) (args : List Arg) :
    Adds P (Fatalf format args : Prog α) :=
  fun t => ⟨[], by simp, rfl⟩

theorem adds_Fatal {α : Type} {P : Event → Bool} (v : Arg) : Adds P (Fatal v : Prog α) :=
  adds_Fatalf _ _

theorem adds_flushStdout {P : Event → Bool} (w : World) (h : ∀ s, P (Event.log s) = true) :
    Adds P (flushStdout w) :=
  fun t => ⟨[Event.log (w.Stdout t)], rfl, by simp [h]⟩

theorem adds_runCmdIn {P : Event → Bool} (w : World) (dir command : String)
    (args : List String) (h : ∀ ok, P (Event.exec dir command args ok) = true) :
    Adds P (runCmdIn w dir command args) := by
  intro t
  rw [runCmdIn_apply]
  cases w.Run t dir command args with
  | none => exact ⟨[_], rfl, by simp [h]⟩
  | some err => exact ⟨[_], rfl, by simp [h]⟩

theorem adds_buildLambda (w : World) (name : String) :
    Adds isBuildPhaseEvent (buildLambda w name) := by
  unfold buildLambda
  exact adds_bind (adds_emit _ rfl) fun _ =>
    adds_bind (adds_runCmdIn _ _ _ _ fun _ => rfl) fun _ =>
    adds_bind (adds_emit _ rfl) fun _ => adds_runCmdIn _ _ _ _ fun _ => rfl

theorem adds_buildItems (w : World) (items : List DirEntry) :
    Adds isBuildPhaseEvent (buildItems w items) := by
  induction items with
  | nil => exact adds_pure _
  | cons item rest ih =>
    unfold buildItems
    dsimp only
    split
    · exact adds_bind (adds_buildLambda w _) fun _ => ih
    · exact adds_bind (adds_pure _) fun _ => ih

theorem adds_buildLambdas (cfg : Config) (w : World) :
    Adds isBuildPhaseEvent (buildLambdas cfg w) := by
  unfold buildLambdas
  refine adds_bind (adds_emit _ rfl) fun _ => ?_
  split
  · refine adds_bind (adds_call _ _ rfl) fun r => ?_
    cases r with
    | error err => exact adds_Fatal _
    | ok items => exact adds_buildItems w items
  · exact adds_buildLambda w _

theorem adds_setupTerraformExec (w : World) :
    Adds isProvisioningPhaseEvent (setupTerraformExec w) := by
  unfold setupTerraformExec
  refine adds_bind (adds_emit _ rfl) fun _ => adds_bind (adds_call _ _ rfl) fun r => ?_
  cases r with
  | error err => exact adds_Fatalf _ _
  | ok execPath =>
    refine adds_bind (adds_call _ _ rfl) fun e => ?_
    cases e with
    | some err => exact adds_Fatalf _ _
    | none => exact adds_pure _

theorem adds_printOutputs (outputs : List (String × OutputMeta)) :
    Adds isProvisioningPhaseEvent (printOutputs outputs) := by
  induction outputs with
  | nil => exact adds_pure _
  | cons kv rest ih =>
    obtain ⟨k, o⟩ := kv
    unfold printOutputs
    split
    · exact ih
    · exact adds_bind (adds_emit _ rfl) fun _ => ih

theorem adds_displayTerraformOutputs (w : World) (tf : Handle) :
    Adds isProvisioningPhaseEvent (displayTerraformOutputs w tf) := by
  unfold displayTerraformOutputs
  refine adds_bind (adds_call _ _ rfl) fun r => ?_
  cases r with
  | error err => exact adds_Fatalf _ _
  | ok outputs =>
    dsimp only
    split
    · exact adds_bind (adds_emit _ rfl) fun _ => adds_printOutputs outputs
    · exact adds_bind (adds_pure _) fun _ => adds_printOutputs outputs

theorem adds_terraformInit (cfg : Config) (w : World) (tf : Handle) (bucket region : String) :
    Adds isProvisioningPhaseEvent (terraformInit cfg w tf bucket region) := by
  unfold terraformInit
  refine adds_bind (adds_emit _ rfl) fun _ => adds_bind (adds_call _ _ rfl) fun e => ?_
  cases e with
  | some err => exact adds_Fatalf _ _
  | none => exact adds_pure _

theorem adds_terraformPlan (cfg : Config) (w : World) (tf : Handle) (bucket : String)
    (account : Nat) (env : String) :
    Adds isProvisioningPhaseEvent (terraformPlan cfg w tf bucket account env) := by
  unfold terraformPlan
  refine adds_bind (adds_emit _ rfl) fun _ => adds_bind (adds_call _ _ rfl) fun e => ?_
  cases e with
  | some err => exact adds_Fatalf _ _
  | none => exact adds_pure _

theorem adds_terraformApply (cfg : Config) (w : World) (tf : Handle) (bucket : String)
    (account : Nat) (env : String) :
    Adds isProvisioningPhaseEvent (terraformApply cfg w tf bucket account env) := by
  unfold terraformApply
  refine adds_bind (adds_emit _ rfl) fun _ => adds_bind (adds_call _ _ rfl) fun e => ?_
  cases e with
  | some err => exact adds_Fatalf _ _
  | none => exact adds_displayTerraformOutputs w tf

theorem adds_runTerraformCommand (cfg : Config) (w : World) :
    Adds isProvisioningPhaseEvent (runTerraformCommand cfg w) := by
  unfold runTerraformCommand
  refine adds_bind (adds_setupTerraformExec w) fun tf => ?_
  have hf : Adds isProvisioningPhaseEvent (flushStdout w) := adds_flushStdout w fun _ => rfl
  dsimp only
  split
  · exact adds_bind (adds_terraformInit _ _ _ _ _) fun _ => hf
  · split
    · exact adds_bind (adds_terraformPlan _ _ _ _ _ _) fun _ => hf
    · split
      · exact adds_bind (adds_terraformApply _ _ _ _ _ _) fun _ => hf
      · split
        · exact adds_bind (adds_Fatalf _ _) fun _ => hf
        · exact adds_bind (adds_Fatalf _ _) fun _ => hf

/-! ### A failed build step ends the run -/

theorem stopsAtFailure_of_adds {α : Type} {p : Prog α} (h : Adds isProvisioningPhaseEvent p) :
    StopsAtFailure p := by
  intro t
  obtain ⟨added, h1, h2⟩ := h t
  refine ⟨added, h1, Or.inl ?_⟩
  rw [List.any_eq_false]
  intro e he
  have := List.all_eq_true.1 h2 e he
  cases e <;> simp_all [isProvisioningPhaseEvent, isBuildCommand, isFailedStep]

theorem stopsAtFailure_runCmdIn (w : World) (dir command : String) (args : List String) :
    StopsAtFailure (runCmdIn w dir command args) := by
  intro t
  rw [runCmdIn_apply]
  cases w.Run t dir command args with
  | none => exact ⟨[_], rfl, Or.inl (by simp [isFailedStep])⟩
  | some err => exact ⟨[_], rfl, Or.inr ⟨[], dir, command, args, err, rfl, rfl, rfl⟩⟩

theorem stopsAtFailure_bind {α β : Type} {x : Prog α} {f : α → Prog β}
    (hx : StopsAtFailure x) (hf : ∀ a, StopsAtFailure (f a)) : StopsAtFailure (x >>= f) := by
  intro t
  obtain ⟨a1, h1, p1⟩ := hx t
  rw [bind_apply]
  rcases hxt : x t with ⟨t1, r⟩
  rw [hxt] at h1 p1
  simp only at h1 p1
  subst h1
  cases r with
  | error e =>
    refine ⟨a1, rfl, ?_⟩
    rcases p1 with p1 | ⟨pre, dir, command, args, err, e1, e2, e3⟩
    · exact Or.inl p1
    · exact Or.inr ⟨pre, dir, command, args, err, e1, e2, by simpa using e3⟩
  | ok a =>
    have p1 : a1.any isFailedStep = false := by
      rcases p1 with p1 | ⟨pre, dir, command, args, err, e1, e2, e3⟩
      · exact p1
      · simp at e3
    obtain ⟨a2, h2, p2⟩ := hf a (t ++ a1)
    refine ⟨a1 ++ a2, by simp [h2], ?_⟩
    rcases p2 with p2 | ⟨pre, dir, command, args, err, e1, e2, e3⟩
    · exact Or.inl (by rw [List.any_append, p1, p2]; rfl)
    · exact Or.inr ⟨a1 ++ pre, dir, command, args, err, by simp [e1],
        by rw [List.any_append, p1, e2]; rfl, e3⟩

theorem stopsAtFailure_emit (e : Event) (h : isBuildCommand e = false) :
    StopsAtFailure (emit e) :=
  stopsAtFailure_of_adds (adds_emit e (by simp [isProvisioningPhaseEvent, h]))

theorem stopsAtFailure_pure {α : Type} (a : α) : StopsAtFailure (pure a : Prog α) :=
  stopsAtFailure_of_adds (adds_pure a)

theorem stopsAtFailure_buildLambda (w : World) (name : String) :
    StopsAtFailure (buildLambda w name) := by
  unfold buildLambda
  exact stopsAtFailure_bind (stopsAtFailure_emit _ rfl) fun _ =>
    stopsAtFailure_bind (stopsAtFailure_runCmdIn _ _ _ _) fun _ =>
    stopsAtFailure_bind (stopsAtFailure_emit _ rfl) fun _ => stopsAtFailure_runCmdIn _ _ _ _

theorem stopsAtFailure_buildItems (w : World) (items : List DirEntry) :
    StopsAtFailure (buildItems w items) := by
  induction items with
  | nil => exact stopsAtFailure_pure _
  | cons item rest ih =>
    unfold buildItems
    dsimp only
    split
    · exact stopsAtFailure_bind (stopsAtFailure_buildLambda w _) fun _ => ih
    · exact stopsAtFailure_bind (stopsAtFailure_pure _) fun _ => ih

theorem stopsAtFailure_buildLambdas (cfg : Config) (w : World) :
    StopsAtFailure (buildLambdas cfg w) := by
  unfold buildLambdas
  refine stopsAtFailure_bind (stopsAtFailure_emit _ rfl) fun _ => ?_
  split
  · refine stopsAtFailure_bind
      (stopsAtFailure_of_adds (adds_call _ _ rfl)) fun r => ?_
    cases r with
    | error err => exact stopsAtFailure_of_adds (adds_Fatal _)
    | ok items => exact stopsAtFailure_buildItems w items
  · exact stopsAtFailure_buildLambda w _

/-- A trace whose only failed build step is its last event is split in one way only around
a failed build step. -/
theorem failed_step_last (pre post pre' : Trace) (f f' : Event)
    (hf : isFailedStep f = true) (hpre : pre'.any isFailedStep = false)
    (h : pre ++ f :: post = pre' ++ [f']) : post = [] ∧ pre = pre' ∧ f = f' := by
  induction pre generalizing pre' with
  | nil =>
    cases pre' with
    | nil => simp at h; exact ⟨h.2, rfl, h.1⟩
    | cons x xs =>
      simp at h hpre
      rw [h.1] at hf
      simp [hpre.1] at hf
  | cons y ys ih =>
    cases pre' with
    | nil => simp at h
    | cons x xs =>
      simp at h hpre
      obtain ⟨h1, h2, h3⟩ := ih xs (by simpa using hpre.2) h.2
      exact ⟨h1, by rw [h.1, h2], h3⟩

/-- The shape of every run: either no build step failed, or the run consists of build-phase
events only, the last of which is the failed step whose error ended the run. -/
theorem run_cases (cfg : Config) (w : World) :
    (run cfg w).1.any isFailedStep = false
    ∨ ((run cfg w).1.all isBuildPhaseEvent = true
        ∧ ∃ pre dir command args err,
            (run cfg w).1 = pre ++ [Event.exec dir command args false]
            ∧ pre.any isFailedStep = false
            ∧ (run cfg w).2 = .error
                (Sprintf "error running %s %s: %s" [.str command, .strs args, .str err])) := by
  obtain ⟨a2, h2, q2⟩ := stopsAtFailure_of_adds (adds_runTerraformCommand cfg w) []
  have q2 : a2.any isFailedStep = false := by
    rcases q2 with q2 | ⟨pre, dir, command, args, err, e1, e2, e3⟩
    · exact q2
    · obtain ⟨a3, h3, q3⟩ := adds_runTerraformCommand cfg w []
      rw [h2] at h3
      have := List.append_cancel_left h3
      subst this
      subst e1
      simp [isProvisioningPhaseEvent, isBuildCommand] at q3
  by_cases hb : shouldBuildLambdas cfg = true
  · obtain ⟨a1, h1, p1⟩ := adds_buildLambdas cfg w []
    obtain ⟨a1', h1', q1⟩ := stopsAtFailure_buildLambdas cfg w []
    rw [h1] at h1'
    have := List.append_cancel_left h1'
    subst this
    rcases hbl : buildLambdas cfg w [] with ⟨t1, r⟩
    rw [hbl] at h1 q1
    simp only [List.nil_append] at h1
    subst h1
    cases r with
    | error e =>
      have hrun : run cfg w = (t1, .error e) := by
        simp [run, main, hb, hbl]
      rw [hrun]
      rcases q1 with q1 | ⟨pre, dir, command, args, err, e1, e2, e3⟩
      · exact Or.inl q1
      · exact Or.inr ⟨p1, pre, dir, command, args, err, e1, e2, e3⟩
    | ok a =>
      have q1 : t1.any isFailedStep = false := by
        rcases q1 with q1 | ⟨pre, dir, command, args, err, e1, e2, e3⟩
        · exact q1
        · simp at e3
      left
      obtain ⟨a3, h3, q3⟩ := stopsAtFailure_of_adds (adds_runTerraformCommand cfg w) t1
      have q3 : a3.any isFailedStep = false := by
        rcases q3 with q3 | ⟨pre, dir, command, args, err, e1, e2, e3⟩
        · exact q3
        · obtain ⟨a4, h4, q4⟩ := adds_runTerraformCommand cfg w t1
          rw [h3] at h4
          have := List.append_cancel_left h4
          subst this
          subst e1
          simp [isProvisioningPhaseEvent, isBuildCommand] at q4
      have hrun : (run cfg w).1 = t1 ++ a3 := by
        simp [run, main, hb, hbl, h3]
      rw [hrun, List.any_append, q1, q3]
      rfl
  · left
    have hrun : (run cfg w).1 = a2 := by
      simp [run, main, hb, h2]
    rw [hrun]
    exact q2

/-- What `displayTerraformOutputs` itself writes through `fmt.Println`: when `tf.Output`
returns an output set, it returns normally and prints the header (if the set is not empty)
followed by one `key = value` line for each entry that is not flagged sensitive, in
enumeration order; so every non-sensitive entry is printed, and these lines do not change
when the sensitive entries are replaced by others. -/
theorem displayTerraformOutputs_printed (w : World) (tf : Handle) (t : Trace)
    (outputs : List (String × OutputMeta)) (h : w.Output t tf = .ok outputs) :
    (displayTerraformOutputs w tf t).2 = .ok ()
    ∧ printed (displayTerraformOutputs w tf t).1
        = printed t ++ (if outputs.length > 0 then ["Terraform outputs:"] else [])
            ++ (outputs.filter (fun kv => !kv.2.Sensitive)).map outputLine
    ∧ (∀ kv ∈ outputs, kv.2.Sensitive = false →
        outputLine kv ∈ printed (displayTerraformOutputs w tf t).1)
    ∧ (∀ (w' : World) (outputs' : List (String × OutputMeta)),
        w'.Output t tf = .ok outputs' →
        outputs'.filter (fun kv => !kv.2.Sensitive) = outputs.filter (fun kv => !kv.2.Sensitive) →
        outputs'.isEmpty = outputs.isEmpty →
        printed (displayTerraformOutputs w' tf t).1
          = printed (displayTerraformOutputs w tf t).1) := by
  have hp : ∀ l : List (String × OutputMeta),
      printed (l.map (fun kv => Event.stdout (outputLine kv))) = l.map outputLine := by
    intro l
    induction l with
    | nil => rfl
    | cons a l ih => simp [printed, ih]
  have key : ∀ (w₁ : World) (o₁ : List (String × OutputMeta)), w₁.Output t tf = .ok o₁ →
      printed (displayTerraformOutputs w₁ tf t).1
        = printed t ++ (if o₁.length > 0 then ["Terraform outputs:"] else [])
            ++ (o₁.filter (fun kv => !kv.2.Sensitive)).map outputLine := by
    intro w₁ o₁ h₁
    by_cases hl : o₁.length > 0 <;>
      simp [displayTerraformOutputs_apply, h₁, hl, printed, hp]
  refine ⟨by simp [displayTerraformOutputs_apply, h], key w outputs h, ?_, ?_⟩
  · intro kv hkv hs
    rw [key w outputs h]
    apply List.mem_append_right
    exact List.mem_map.2 ⟨kv, List.mem_filter.2 ⟨hkv, by simp [hs]⟩, rfl⟩
  · intro w' outputs' h' hf he
    rw [key w outputs h, key w' outputs' h', hf]
    have : (outputs'.length > 0) ↔ (outputs.length > 0) := by
      cases outputs <;> cases outputs' <;> simp at he ⊢
    simp [this]

/-! ## The claims -/

/-- C1: `shouldBuildLambdas` returns true if and only if the operation is "plan" or "apply"
and the build selector is not "none"; in particular it returns false for every operation
other than "plan" and "apply" ("init", "destroy", any unrecognised value), whatever the
selector. -/
theorem shouldBuildLambdas_iff (cfg : Config) :
    (shouldBuildLambdas cfg = true ↔
      (cfg.tfOp = "plan" ∨ cfg.tfOp = "apply") ∧ cfg.build ≠ "none")
    ∧ (cfg.tfOp ≠ "plan" → cfg.tfOp ≠ "apply" → shouldBuildLambdas cfg = false) := by
  constructor
  · simp [shouldBuildLambdas, and_comm]
  · intro h1 h2
    simp [shouldBuildLambdas, h1, h2]

/-- Instances of C1: "init", "destroy" and "refresh" never build, "plan" with selector "B"
builds, "apply" with selector "none" does not. -/
theorem shouldBuildLambdas_iff_witness :
    shouldBuildLambdas (cfgOf "init" "all") = false
    ∧ shouldBuildLambdas (cfgOf "destroy" "B") = false
    ∧ shouldBuildLambdas (cfgOf "refresh" "all") = false
    ∧ shouldBuildLambdas (cfgOf "plan" "B") = true
    ∧ shouldBuildLambdas (cfgOf "apply" "none") = false :=
  ⟨(shouldBuildLambdas_iff (cfgOf "init" "all")).2 (by decide) (by decide),
   (shouldBuildLambdas_iff (cfgOf "destroy" "B")).2 (by decide) (by decide),
   (shouldBuildLambdas_iff (cfgOf "refresh" "all")).2 (by decide) (by decide),
   (shouldBuildLambdas_iff (cfgOf "plan" "B")).1.2 ⟨Or.inl rfl, by decide⟩,
   by decide⟩

/-- C6: the bucket name computed in `runTerraformCommand` is the decimal rendering of the
account, then "-", then the region, then "-terraform-deployments"; two configurations with
the same account and region give the same name; for account 123 and region "eu-west-1" it
is "123-eu-west-1-terraform-deployments". -/
theorem tfWorkingBucket_eq (cfg : Config) :
    tfWorkingBucket cfg
      = (Nat.toDigits 10 cfg.awsAccountNumber).asString ++ "-" ++ cfg.awsRegion
          ++ "-terraform-deployments"
    ∧ (∀ cfg' : Config, cfg'.awsAccountNumber = cfg.awsAccountNumber →
        cfg'.awsRegion = cfg.awsRegion → tfWorkingBucket cfg' = tfWorkingBucket cfg)
    ∧ tfWorkingBucket { cfg with awsAccountNumber := 123, awsRegion := "eu-west-1" }
      = "123-eu-west-1-terraform-deployments" := by
  refine ⟨Sprintf_bucket _ _, ?_, ?_⟩
  · intro cfg' h1 h2
    simp [tfWorkingBucket, h1, h2]
  · simp only [tfWorkingBucket]
    decide

/-- Instance of C6: changing every flag but the account and the region leaves the bucket
name unchanged. -/
theorem tfWorkingBucket_eq_witness :
    tfWorkingBucket ⟨123, "prod", "eu-west-1", "other", "init", "none", "vpc-9"⟩
      = tfWorkingBucket (cfgOf "apply" "all") :=
  (tfWorkingBucket_eq (cfgOf "apply" "all")).2.1 _ rfl rfl

/-- C7: `terraformApply` passes to `tf.Apply` exactly the options `terraformPlan` passes to
`tf.Plan`: refresh enabled, the variables `terraform_working_bucket`, `account_number`,
`environment` and `vpc_id`, and the variables file `environments/{environment}.tfvars`; each
function makes exactly one such call. -/
theorem terraformApply_options_eq_terraformPlan (cfg : Config) (w : World) (tf : Handle)
    (bucket : String) (account : Nat) (env : String) (t : Trace) :
    ∃ opts : List TfOption,
      opts = [ .Refresh true,
               .Var ("terraform_working_bucket=" ++ bucket),
               .Var ("account_number=" ++ (Nat.toDigits 10 account).asString),
               .Var ("environment=" ++ env),
               .Var ("vpc_id=" ++ cfg.vpcId),
               .VarFile ("environments/" ++ env ++ ".tfvars") ]
      ∧ planCalls (terraformPlan cfg w tf bucket account env t).1 = planCalls t ++ [opts]
      ∧ applyCalls (terraformApply cfg w tf bucket account env t).1 = applyCalls t ++ [opts] := by
  refine ⟨_, rfl, ?_, ?_⟩
  · simp [terraformPlan_apply, planCalls, planOptions, Sprintf_bucketVar, Sprintf_accountVar,
      Sprintf_environmentVar, Sprintf_vpcVar, Sprintf_varFile]
  · obtain ⟨rest, h, _, _, h3, _⟩ := terraformApply_apply cfg w tf bucket account env t
    simp [h, applyCalls, h3, applyOptions, Sprintf_bucketVar, Sprintf_accountVar,
      Sprintf_environmentVar, Sprintf_vpcVar, Sprintf_varFile]

set_option maxRecDepth 100000 in
/-- C2 fails on the code: for operation "apply" with the plain output `url` and the sensitive
output `secret`, `displayTerraformOutputs` prints only the header and the line of `url`, yet
the run returns normally and its last action writes the captured standard output of the
session to the log, and that text holds the JSON document of the outputs: the key `secret`
and its value `"abc"` occur in what the process writes. -/
theorem sensitive_output_reaches_log :
    worldOk.Output [] ⟨"terraform", "/tmp/terraform"⟩
        = .ok [("url", ⟨false, "\"https://x\""⟩), ("secret", ⟨true, "\"abc\""⟩)]
    ∧ (run (cfgOf "apply" "none") worldOk).2 = .ok ()
    ∧ printed (run (cfgOf "apply" "none") worldOk).1
        = ["Terraform outputs:", "url = \"https://x\"\n"]
    ∧ (run (cfgOf "apply" "none") worldOk).1.getLast? = some (Event.log outputJson)
    ∧ (processOutput (run (cfgOf "apply" "none") worldOk).1).any (occursIn "\"abc\"") = true
    ∧ (processOutput (run (cfgOf "apply" "none") worldOk).1).any (occursIn "secret") = true := by
  decide

/-- C3: for every configuration whose operation is not "init", "plan" or "apply", the run
ends in a fatal termination and its trace contains no build command and no init, plan,
apply or output call on the Terraform session. -/
theorem no_build_no_provisioning_of_other_operation (cfg : Config) (w : World)
    (hi : cfg.tfOp ≠ "init") (hp : cfg.tfOp ≠ "plan") (ha : cfg.tfOp ≠ "apply") :
    isFatal (run cfg w).2 = true
    ∧ (run cfg w).1.any isBuildCommand = false
    ∧ (run cfg w).1.any isProvisioningCall = false := by
  rw [run_of_no_provisioning_op cfg w hi hp ha]
  cases h : w.Install [Event.log "installing Terraform..."] "1.6" with
  | error err => simp [isFatal, isBuildCommand, isProvisioningCall]
  | ok execPath =>
    cases h2 : w.NewTerraform [Event.log "installing Terraform...", Event.install "1.6"]
        "terraform" execPath with
    | some err => simp [isFatal, isBuildCommand, isProvisioningCall, h2]
    | none =>
      by_cases hd : cfg.tfOp = "destroy" <;>
        simp [isFatal, isBuildCommand, isProvisioningCall, hd, h2]

/-- Instance of C3: operation "destroy" in a world where every step would succeed ends with
the "not implemented" message after the set-up alone; operation "refresh" likewise is
fatal without any build command or session call. -/
theorem no_build_no_provisioning_of_other_operation_witness :
    (isFatal (run (cfgOf "destroy" "all") worldOk).2 = true
      ∧ (run (cfgOf "destroy" "all") worldOk).1.any isBuildCommand = false
      ∧ (run (cfgOf "destroy" "all") worldOk).1.any isProvisioningCall = false)
    ∧ (isFatal (run (cfgOf "refresh" "all") worldOk).2 = true
      ∧ (run (cfgOf "refresh" "all") worldOk).1.any isBuildCommand = false
      ∧ (run (cfgOf "refresh" "all") worldOk).1.any isProvisioningCall = false)
    ∧ (run (cfgOf "destroy" "all") worldOk).2 = .error "Destroy needs implementing!" :=
  ⟨no_build_no_provisioning_of_other_operation (cfgOf "destroy" "all") worldOk
      (by decide) (by decide) (by decide),
   no_build_no_provisioning_of_other_operation (cfgOf "refresh" "all") worldOk
      (by decide) (by decide) (by decide),
   by decide⟩

/-- C8: for operation "init", once the set-up has succeeded `tf.Init` is called exactly once,
with the upgrade flag and the three backend options `key=tfstate/{environment}/{appName}.json`,
`bucket={account}-{region}-terraform-deployments` and `region={region}`; and in every run for
"init" there is no call of `tf.Init` with other options, nor a second call. -/
theorem init_called_once_with_backend_options (cfg : Config) (w : World)
    (hop : cfg.tfOp = "init") :
    ∃ opts : List TfOption,
      opts = [ .Upgrade true,
               .BackendConfig ("key=tfstate/" ++ cfg.environment ++ "/" ++ cfg.appName ++ ".json"),
               .BackendConfig ("bucket=" ++ ((Nat.toDigits 10 cfg.awsAccountNumber).asString
                  ++ "-" ++ cfg.awsRegion ++ "-terraform-deployments")),
               .BackendConfig ("region=" ++ cfg.awsRegion) ]
      ∧ (∀ execPath : String,
          w.Install [Event.log "installing Terraform..."] "1.6" = .ok execPath →
          w.NewTerraform [Event.log "installing Terraform...", Event.install "1.6"]
            "terraform" execPath = none →
          initCalls (run cfg w).1 = [opts])
      ∧ (initCalls (run cfg w).1 = [] ∨ initCalls (run cfg w).1 = [opts]) := by
  refine ⟨_, rfl, ?_, ?_⟩
  · intro execPath h h2
    rw [run_of_init cfg w hop, ← initOptions_eq]
    simp only [h, h2]
    split <;> simp [initCalls]
  · rw [run_of_init cfg w hop, ← initOptions_eq]
    split
    · simp [initCalls]
    · split
      · simp [initCalls]
      · right
        split <;> simp [initCalls]

/-- Instance of C8: account 123, region "eu-west-1", environment "nonprod", application
"jwt-authorizer". -/
theorem init_called_once_with_backend_options_witness :
    initCalls (run (cfgOf "init" "all") worldOk).1
      = [[ .Upgrade true,
           .BackendConfig "key=tfstate/nonprod/jwt-authorizer.json",
           .BackendConfig "bucket=123-eu-west-1-terraform-deployments",
           .BackendConfig "region=eu-west-1" ]] := by
  obtain ⟨opts, ho, h, _⟩ := init_called_once_with_backend_options (cfgOf "init" "all") worldOk rfl
  rw [h "/tmp/terraform" rfl rfl, ho]
  decide

/-- C9 (as amended): for every configuration whose operation is missing or not one of init,
plan, apply, destroy, the run terminates fatally and its external actions are exactly the
installation of Terraform followed, when the installation succeeded, by the creation of the
session handle: no directory listing, no build command and no call on the session; when
both set-up steps succeed the fatal message is the "Bad operation" message. -/
theorem bad_operation_detected_after_setup (cfg : Config) (w : World)
    (hop : cfg.tfOp ∉ recognisedOperations) :
    isFatal (run cfg w).2 = true
    ∧ externalActions (run cfg w).1 =
        (match w.Install [Event.log "installing Terraform..."] "1.6" with
         | .error _ => [Event.install "1.6"]
         | .ok execPath => [Event.install "1.6", Event.newTerraform "terraform" execPath])
    ∧ (∀ execPath : String,
        w.Install [Event.log "installing Terraform..."] "1.6" = .ok execPath →
        w.NewTerraform [Event.log "installing Terraform...", Event.install "1.6"]
          "terraform" execPath = none →
        (run cfg w).2 = .error
          "Bad operation: --tfop should be one of init, plan, apply, skip, or destroy") := by
  simp only [recognisedOperations, List.mem_cons, List.mem_singleton, not_or,
    List.not_mem_nil, or_false] at hop
  obtain ⟨hi, hp, ha, hd⟩ := hop
  rw [run_of_no_provisioning_op cfg w hi hp ha]
  have hm : Sprintf "Bad operation: --tfop should be one of init, plan, apply, skip, or destroy" []
      = "Bad operation: --tfop should be one of init, plan, apply, skip, or destroy" := by decide
  refine ⟨?_, ?_, ?_⟩
  · cases h : w.Install [Event.log "installing Terraform..."] "1.6" with
    | error err => simp [isFatal]
    | ok execPath =>
      cases h2 : w.NewTerraform [Event.log "installing Terraform...", Event.install "1.6"]
          "terraform" execPath <;> simp [isFatal, hd, h2]
  · cases h : w.Install [Event.log "installing Terraform..."] "1.6" <;>
      simp [externalActions, isExternalAction]
  · intro execPath h h2
    simp [h, h2, hd, hm]

/-- Instance of C9 (as amended): a missing operation with a failing installer stops after the
installation attempt; with a working set-up it stops with the "Bad operation" message. -/
theorem bad_operation_detected_after_setup_witness :
    externalActions (run (cfgOf "" "all") worldOk).1
        = [Event.install "1.6", Event.newTerraform "terraform" "/tmp/terraform"]
    ∧ (run (cfgOf "" "all") worldOk).2 = .error
        "Bad operation: --tfop should be one of init, plan, apply, skip, or destroy" :=
  ⟨(bad_operation_detected_after_setup (cfgOf "" "all") worldOk (by decide)).2.1,
   (bad_operation_detected_after_setup (cfgOf "" "all") worldOk (by decide)).2.2
      "/tmp/terraform" rfl rfl⟩

/-- C9 fails as stated: with the operation flag missing, the run installs Terraform and
creates the session handle before it reports the bad operation, so its trace of external
actions is not empty. -/
theorem bad_operation_trace_not_empty :
    (cfgOf "" "all").tfOp ∉ recognisedOperations
    ∧ isFatal (run (cfgOf "" "all") worldOk).2 = true
    ∧ externalActions (run (cfgOf "" "all") worldOk).1
        = [Event.install "1.6", Event.newTerraform "terraform" "/tmp/terraform"]
    ∧ externalActions (run (cfgOf "" "all") worldOk).1 ≠ [] := by
  decide

/-- C10: for an operation outside init, plan, apply, destroy, once the set-up has succeeded
the fatal message is the "Bad operation" message, and the operation names it enumerates are
init, plan, apply, skip and destroy: it lists "skip", for which the dispatch has no case. -/
theorem bad_operation_message_lists_skip (cfg : Config) (w : World) (execPath : String)
    (hop : cfg.tfOp ∉ recognisedOperations)
    (hi : w.Install [Event.log "installing Terraform..."] "1.6" = .ok execPath)
    (hn : w.NewTerraform [Event.log "installing Terraform...", Event.install "1.6"]
            "terraform" execPath = none) :
    ∃ msg : String, (run cfg w).2 = .error msg
      ∧ listedOperations msg = ["init", "plan", "apply", "skip", "destroy"]
      ∧ listedOperations msg ≠ recognisedOperations
      ∧ "skip" ∈ listedOperations msg ∧ "skip" ∉ recognisedOperations := by
  simp only [recognisedOperations, List.mem_cons, List.mem_singleton, not_or,
    List.not_mem_nil, or_false] at hop
  obtain ⟨h1, h2, h3, h4⟩ := hop
  refine ⟨"Bad operation: --tfop should be one of init, plan, apply, skip, or destroy",
    ?_, by decide, by decide, by decide, by decide⟩
  rw [run_of_no_provisioning_op cfg w h1 h2 h3]
  have hm : Sprintf "Bad operation: --tfop should be one of init, plan, apply, skip, or destroy" []
      = "Bad operation: --tfop should be one of init, plan, apply, skip, or destroy" := by decide
  simp [hi, hn, h4, hm]

/-- Instance of C10: the operation "skip", which the message offers as valid, is itself
rejected with that message. -/
theorem bad_operation_message_lists_skip_witness :
    ∃ msg : String, (run (cfgOf "skip" "all") worldOk).2 = .error msg
      ∧ listedOperations msg = ["init", "plan", "apply", "skip", "destroy"]
      ∧ listedOperations msg ≠ recognisedOperations
      ∧ "skip" ∈ listedOperations msg ∧ "skip" ∉ recognisedOperations :=
  bad_operation_message_lists_skip (cfgOf "skip" "all") worldOk "/tmp/terraform"
    (by decide) rfl rfl

/-- C5: when every build step succeeds, `buildLambdas` returns normally and the commands it
runs are exactly these, in this order: for selector "all", for each entry of the listing
of `lambdas` that is a directory, in listing order, `make test` then `make target` in
`lambdas/{name}` (nothing for the other entries); for any other selector, `make test` then
`make target` in `lambdas/{selector}`, whatever the listing. -/
theorem buildLambdas_commands (cfg : Config) (w : World) (t : Trace)
    (hrun : ∀ t dir command args, w.Run t dir command args = none) :
    (cfg.build = "all" → ∀ items : List DirEntry,
        w.ReadDir (t ++ [Event.log "building Lambdas..."]) "lambdas" = .ok items →
        (buildLambdas cfg w t).2 = .ok ()
        ∧ commands (buildLambdas cfg w t).1
            = commands t ++ (items.filter (fun item => item.IsDir)).flatMap
                (fun item => [("lambdas/" ++ item.Name, "make", ["test"]),
                              ("lambdas/" ++ item.Name, "make", ["target"])]))
    ∧ (cfg.build ≠ "all" →
        (buildLambdas cfg w t).2 = .ok ()
        ∧ commands (buildLambdas cfg w t).1
            = commands t ++ [("lambdas/" ++ cfg.build, "make", ["test"]),
                             ("lambdas/" ++ cfg.build, "make", ["target"])]) := by
  constructor
  · intro hall items hread
    obtain ⟨h1, h2⟩ := buildItems_of_success w items
      (t ++ [Event.log "building Lambdas...", Event.readDir "lambdas"]) hrun
    simp [buildLambdas, hall, hread, h1, h2, commands]
  · intro hsel
    obtain ⟨h1, h2⟩ := buildLambda_of_success w cfg.build
      (t ++ [Event.log "building Lambdas..."]) hrun
    simp [buildLambdas, hsel, h1, h2, commands]

/-- Instance of C5: with the listing A (directory), B (directory), README (file), selector
"all" builds A and then B and never README; selector "B" builds only B. -/
theorem buildLambdas_commands_witness :
    commands (buildLambdas (cfgOf "apply" "all") worldOk []).1
        = [("lambdas/A", "make", ["test"]), ("lambdas/A", "make", ["target"]),
           ("lambdas/B", "make", ["test"]), ("lambdas/B", "make", ["target"])]
    ∧ commands (buildLambdas (cfgOf "apply" "B") worldOk []).1
        = [("lambdas/B", "make", ["test"]), ("lambdas/B", "make", ["target"])] :=
  ⟨((buildLambdas_commands (cfgOf "apply" "all") worldOk [] (fun _ _ _ _ => rfl)).1 rfl
      [⟨"A", true⟩, ⟨"B", true⟩, ⟨"README", false⟩] rfl).2.trans (by decide),
   ((buildLambdas_commands (cfgOf "apply" "B") worldOk [] (fun _ _ _ _ => rfl)).2
      (by decide)).2.trans (by decide)⟩

/-- C4: if a build step fails, it is the last event of the run, the run terminates fatally
with the error of that step, no earlier build step had failed, and the trace contains no
set-up of the Terraform session and no init, plan, apply or output call. -/
theorem build_failure_ends_run (cfg : Config) (w : World) (pre post : Trace)
    (dir command : String) (args : List String)
    (h : (run cfg w).1 = pre ++ Event.exec dir command args false :: post) :
    post = []
    ∧ (∃ err : String, (run cfg w).2 = .error
        (Sprintf "error running %s %s: %s" [.str command, .strs args, .str err]))
    ∧ pre.any isFailedStep = false
    ∧ (run cfg w).1.any isSetup = false
    ∧ (run cfg w).1.any isProvisioningCall = false := by
  rcases run_cases cfg w with hno | ⟨hall, pre', dir', command', args', err, e1, e2, e3⟩
  · rw [h] at hno
    simp [isFailedStep] at hno
  · rw [h] at e1
    obtain ⟨h1, h2, h3⟩ := failed_step_last pre post pre' (Event.exec dir command args false)
      (Event.exec dir' command' args' false) rfl e2 e1
    injection h3 with hd hc hargs _
    subst h2 hd hc hargs
    refine ⟨h1, ⟨err, e3⟩, e2, ?_, ?_⟩
    · rw [List.any_eq_false]
      intro e he
      have := List.all_eq_true.1 hall e he
      cases e <;> simp_all [isBuildPhaseEvent, isSetup]
    · rw [List.any_eq_false]
      intro e he
      have := List.all_eq_true.1 hall e he
      cases e <;> simp_all [isBuildPhaseEvent, isProvisioningCall, isSetup]

/-- Instance of C4: `make target` fails for artifact A under selector "all" and operation
"apply"; the run stops there, before artifact B and before any Terraform step. -/
theorem build_failure_ends_run_witness :
    (run (cfgOf "apply" "all") worldTargetFails).1
        = [Event.log "building Lambdas...", Event.readDir "lambdas",
           Event.log "running tests for A Lambda...\n",
           Event.exec "lambdas/A" "make" ["test"] true,
           Event.log "building A Lambda...\n",
           Event.exec "lambdas/A" "make" ["target"] false]
    ∧ (([] : Trace) = []
      ∧ (∃ err : String, (run (cfgOf "apply" "all") worldTargetFails).2 = .error
          (Sprintf "error running %s %s: %s" [.str "make", .strs ["target"], .str err]))
      ∧ [Event.log "building Lambdas...", Event.readDir "lambdas",
           Event.log "running tests for A Lambda...\n",
           Event.exec "lambdas/A" "make" ["test"] true,
           Event.log "building A Lambda...\n"].any isFailedStep = false
      ∧ (run (cfgOf "apply" "all") worldTargetFails).1.any isSetup = false
      ∧ (run (cfgOf "apply" "all") worldTargetFails).1.any isProvisioningCall = false) :=
  ⟨by decide,
   build_failure_ends_run (cfgOf "apply" "all") worldTargetFails
     [Event.log "building Lambdas...", Event.readDir "lambdas",
      Event.log "running tests for A Lambda...\n",
      Event.exec "lambdas/A" "make" ["test"] true,
      Event.log "building A Lambda...\n"] [] "lambdas/A" "make" ["target"] (by decide)⟩

end Terraform
